import Mathlib

/-!
Shallow embedding of the immutable receipt ledger implemented in
`src/Project 7/receipts/service.py` (FastAPI handlers over a sqlite table).

Modelling choices, each justified against the source:

* The sqlite table `receipts` (one row per receipt, `id TEXT PRIMARY KEY`,
  the remaining columns `TEXT`, `previous_hash` and `metadata` nullable) is
  modelled as a `List Receipt` in row-insertion order.
* sqlite compares `TEXT` values with the default BINARY collation, i.e. a
  bytewise `memcmp` of their UTF-8 encodings, which coincides with
  lexicographic comparison of the code-point sequences.  `strLtB` below is
  that comparison, written structurally so the kernel can evaluate it.
* `metadata` is a Python `Optional[dict]`; the service stores
  `json.dumps(metadata)` when the dict is truthy (non-empty) and `NULL`
  otherwise, and parses the text back with `json.loads` at every response
  boundary.  Since `json.dumps`/`json.loads` round-trip the dict and the
  stored text of a non-empty dict is never the empty string, the serialized
  column is modelled as the dict itself (`Option (List (String × Json))`).
* `str(uuid.uuid4())`, used when the caller supplies no id (or a falsy empty
  id), is an external source of fresh names; it is passed to `create_receipt`
  as an explicit `fresh : String` argument.
* JSON bodies whose exact key/value shape matters (the verify endpoint) are
  modelled as association lists of flat JSON literals (`JVal`), in the order
  the Python dict literal writes them.
-/

namespace ReceiptLedger

/-- JSON values, used for the opaque `metadata` dict of a receipt. -/
inductive Json where
  | null : Json
  | jbool : Bool → Json
  | jstr : String → Json
  | jnum : Int → Json
  | jarr : List Json → Json
  | jobj : List (String × Json) → Json

/-- Flat JSON literals appearing as values of the verify endpoint's
response dict. -/
inductive JVal where
  | jbool : Bool → JVal
  | jstr : String → JVal
deriving DecidableEq

/-- An HTTP error raised by a handler (`HTTPException(status_code, detail)`). -/
structure HErr where
  status : Nat
  detail : String
deriving DecidableEq

/-- A stored receipt: one row of the sqlite `receipts` table
(`service.py`, `init_db`, lines 96-106).  `previous_hash` and `metadata`
are the nullable columns. -/
structure Receipt where
  id : String
  document_hash : String
  signature : String
  timestamp : String
  type : String
  previous_hash : Option String
  metadata : Option (List (String × Json))

/-- The request body of `POST /receipts` (`ReceiptCreate`, lines 117-123);
`id` and `metadata` are optional. -/
structure ReceiptCreate where
  id : Option String
  document_hash : String
  signature : String
  timestamp : String
  type : String
  metadata : Option (List (String × Json))

/-- The ledger store: the rows of the `receipts` table in insertion order. -/
abbrev Store := List Receipt

/-- Bytewise (memcmp) lexicographic strict order on code-point sequences:
how sqlite's BINARY collation compares two `TEXT` values (UTF-8 encoding
preserves code-point order under bytewise comparison). -/
def strLtB : List Char → List Char → Bool
  | [], [] => false
  | [], _ :: _ => true
  | _ :: _, [] => false
  | a :: as, b :: bs => if a < b then true else if b < a then false else strLtB as bs

/-- The SQL comparison `s < t` on two `TEXT` values. -/
def sqlLt (s t : String) : Prop := strLtB s.data t.data = true

instance (s t : String) : Decidable (sqlLt s t) :=
  inferInstanceAs (Decidable (_ = true))

theorem strLtB_irrefl : ∀ l : List Char, strLtB l l = false := by
  intro l
  induction l with
  | nil => rfl
  | cons a as ih => simp [strLtB, lt_irrefl, ih]

theorem strLtB_asymm : ∀ (a b : List Char), strLtB a b = true → strLtB b a = false
  | [], [] => by simp [strLtB]
  | [], _ :: _ => by simp [strLtB]
  | _ :: _, [] => by simp [strLtB]
  | x :: xs, y :: ys => by
    intro h
    simp only [strLtB] at h ⊢
    by_cases hxy : x < y
    · rw [if_neg (asymm hxy), if_pos hxy]
    · rw [if_neg hxy] at h
      by_cases hyx : y < x
      · rw [if_pos hyx] at h
        exact Bool.noConfusion h
      · rw [if_neg hyx] at h
        rw [if_neg hyx, if_neg hxy]
        exact strLtB_asymm xs ys h

theorem strLtB_trans :
    ∀ (a b c : List Char), strLtB a b = true → strLtB b c = true → strLtB a c = true
  | [], [], _ => by simp [strLtB]
  | [], _ :: _, [] => by simp [strLtB]
  | [], _ :: _, _ :: _ => by simp [strLtB]
  | _ :: _, [], _ => by simp [strLtB]
  | _ :: _, _ :: _, [] => by simp [strLtB]
  | x :: xs, y :: ys, z :: zs => by
    intro h1 h2
    simp only [strLtB] at h1 h2 ⊢
    by_cases hxy : x < y
    · by_cases hyz : y < z
      · rw [if_pos (lt_trans hxy hyz)]
      · rw [if_neg hyz] at h2
        by_cases hzy : z < y
        · rw [if_pos hzy] at h2
          exact Bool.noConfusion h2
        · have hyz' : y = z := le_antisymm (not_lt.mp hzy) (not_lt.mp hyz)
          rw [if_pos (hyz' ▸ hxy)]
    · rw [if_neg hxy] at h1
      by_cases hyx : y < x
      · rw [if_pos hyx] at h1
        exact Bool.noConfusion h1
      · rw [if_neg hyx] at h1
        have hxy' : x = y := le_antisymm (not_lt.mp hyx) (not_lt.mp hxy)
        subst hxy'
        by_cases hxz : x < z
        · rw [if_pos hxz]
        · rw [if_neg hxz] at h2 ⊢
          by_cases hzx : z < x
          · rw [if_pos hzx] at h2
            exact Bool.noConfusion h2
          · rw [if_neg hzx] at h2 ⊢
            exact strLtB_trans xs ys zs h1 h2

theorem strLtB_eq_of_not_lt :
    ∀ (a b : List Char), strLtB a b = false → strLtB b a = false → a = b
  | [], [] => by intro _ _; rfl
  | [], _ :: _ => by simp [strLtB]
  | _ :: _, [] => by simp [strLtB]
  | x :: xs, y :: ys => by
    intro h1 h2
    simp only [strLtB] at h1 h2
    by_cases hxy : x < y
    · rw [if_pos hxy] at h1
      exact Bool.noConfusion h1
    · by_cases hyx : y < x
      · rw [if_pos hyx] at h2
        exact Bool.noConfusion h2
      · rw [if_neg hxy, if_neg hyx] at h1
        rw [if_neg hyx, if_neg hxy] at h2
        have hx : x = y := le_antisymm (not_lt.mp hyx) (not_lt.mp hxy)
        have ht := strLtB_eq_of_not_lt xs ys h1 h2
        rw [hx, ht]

theorem strLtB_not_lt_trans (a b c : List Char)
    (h1 : strLtB a b = false) (h2 : strLtB b c = false) : strLtB a c = false := by
  cases hac : strLtB a c with
  | false => rfl
  | true =>
    cases hba : strLtB b a with
    | true =>
      have hbc := strLtB_trans b a c hba hac
      rw [hbc] at h2
      exact Bool.noConfusion h2
    | false =>
      have hab := strLtB_eq_of_not_lt a b h1 hba
      subst hab
      rw [hac] at h2
      exact Bool.noConfusion h2

/-- The relation `ORDER BY timestamp DESC` sorts by: the earlier row's
timestamp is not below the later row's (`tsGe a b` ↔ `a.timestamp ≥ b.timestamp`
under the BINARY collation). -/
def tsGe (a b : Receipt) : Prop := strLtB a.timestamp.data b.timestamp.data = false

instance : DecidableRel tsGe := fun _ _ => inferInstanceAs (Decidable (_ = false))

instance : IsTotal Receipt tsGe :=
  ⟨by
    intro a b
    cases h : strLtB a.timestamp.data b.timestamp.data with
    | false => exact Or.inl h
    | true => exact Or.inr (strLtB_asymm _ _ h)⟩

instance : IsTrans Receipt tsGe :=
  ⟨fun _ _ _ h1 h2 => strLtB_not_lt_trans _ _ _ h1 h2⟩

/-- The row sequence produced by `SELECT * FROM receipts ORDER BY timestamp
DESC`.  sqlite leaves the relative order of equal timestamps unspecified; a
stable sort is one admissible realisation. -/
def sortByTimestampDesc (s : Store) : List Receipt := List.insertionSort tsGe s

/-- `get_latest_receipt_hash` (`service.py`, lines 135-148):
`SELECT document_hash FROM receipts ORDER BY timestamp DESC LIMIT 1`,
returning that hash, or `None` when the table is empty. -/
def get_latest_receipt_hash (s : Store) : Option String :=
  (sortByTimestampDesc s).head?.map Receipt.document_hash

/-- The id-defaulting step of `create_receipt` (lines 167-169):
`if not receipt.id: receipt.id = str(uuid.uuid4())` — Python truthiness, so
both a missing id and an empty-string id are replaced by the fresh uuid. -/
def resolveId (fresh : String) (rid : Option String) : String :=
  match rid with
  | none => fresh
  | some i => if i = "" then fresh else i

/-- The metadata-serialisation step of `create_receipt` (line 182):
`json.dumps(receipt.metadata) if receipt.metadata else None` — an absent or
empty (falsy) dict is stored as `NULL`. -/
def storedMetadata (m : Option (List (String × Json))) : Option (List (String × Json)) :=
  match m with
  | none => none
  | some kvs => if kvs.isEmpty then none else some kvs

/-- The `receipt_data` record assembled by `create_receipt` (lines 171-183):
the caller's fields, the resolved id, the tip hash read by
`get_latest_receipt_hash()`, and the serialised metadata. -/
def mkReceipt (s : Store) (fresh : String) (req : ReceiptCreate) : Receipt :=
  { id := resolveId fresh req.id
    document_hash := req.document_hash
    signature := req.signature
    timestamp := req.timestamp
    type := req.type
    previous_hash := get_latest_receipt_hash s
    metadata := storedMetadata req.metadata }

/-- `POST /receipts` — `create_receipt` (`service.py`, lines 162-218).
Resolves the id, reads the current tip hash, assembles the row, and runs the
`INSERT`; a duplicate primary key raises `sqlite3.IntegrityError`, answered
with HTTP 400 and no change to the table.  On success the new row is
committed and the assembled record (metadata parsed back) is returned.
`fresh` stands for the `str(uuid.uuid4())` drawn when the id is absent. -/
def create_receipt (s : Store) (fresh : String) (req : ReceiptCreate) :
    Except HErr Receipt × Store :=
  let rid := resolveId fresh req.id
  let r := mkReceipt s fresh req
  if s.any (fun t => t.id == rid) then
    (Except.error ⟨400, "Receipt with ID " ++ rid ++ " already exists"⟩, s)
  else
    (Except.ok r, s ++ [r])

/-- `GET /receipts/{id}` — `get_receipt` (`service.py`, lines 220-252):
`SELECT * FROM receipts WHERE id = ?`, 404 when no row matches, otherwise the
row with its metadata column parsed back into a dict. -/
def get_receipt (s : Store) (rid : String) : Except HErr Receipt :=
  match s.find? (fun t => t.id == rid) with
  | none => Except.error ⟨404, "Receipt with ID " ++ rid ++ " not found"⟩
  | some r => Except.ok r

/-- The response body of `GET /receipts` (`list_receipts`, lines 281-286). -/
structure ListResult where
  total : Nat
  offset : Nat
  limit : Nat
  receipts : List Receipt

/-- `GET /receipts?limit&offset` — `list_receipts` (`service.py`, lines
254-286): `SELECT COUNT(*)` for the total, then
`SELECT * FROM receipts ORDER BY timestamp DESC LIMIT ? OFFSET ?`.
Modelled for the non-negative `limit`/`offset` the spec admits, on which the
SQL clause drops `offset` rows of the sorted sequence and keeps at most
`limit`. -/
def list_receipts (s : Store) (limit offset : Nat) : ListResult :=
  { total := s.length
    offset := offset
    limit := limit
    receipts := ((sortByTimestampDesc s).drop offset).take limit }

/-- The verify endpoint's success body `{"verified": True, "receipt_id": rid}`
(line 321). -/
def verifiedTrue (rid : String) : List (String × JVal) :=
  [("verified", JVal.jbool true), ("receipt_id", JVal.jstr rid)]

/-- The verify endpoint's failure body
`{"verified": False, "error": "Previous hash does not match any receipt"}`
(line 316). -/
def verifiedFalse : List (String × JVal) :=
  [("verified", JVal.jbool false), ("error", JVal.jstr "Previous hash does not match any receipt")]

/-- `GET /receipts/verify/{id}` — `verify_receipt` (`service.py`, lines
288-321).  404 when the receipt is missing; `if receipt["previous_hash"]:` is
Python truthiness, so both a `NULL` and an empty-string `previous_hash` skip
the predecessor search; otherwise
`SELECT document_hash FROM receipts WHERE document_hash = ? AND timestamp < ?`
decides the outcome. -/
def verify_receipt (s : Store) (rid : String) : Except HErr (List (String × JVal)) :=
  match s.find? (fun t => t.id == rid) with
  | none => Except.error ⟨404, "Receipt with ID " ++ rid ++ " not found"⟩
  | some r =>
    match r.previous_hash with
    | none => Except.ok (verifiedTrue rid)
    | some p =>
      if p = "" then
        Except.ok (verifiedTrue rid)
      else if s.any (fun t => t.document_hash == p && strLtB t.timestamp.data r.timestamp.data) then
        Except.ok (verifiedTrue rid)
      else
        Except.ok verifiedFalse

/-! Helper lemmas about the sorted scan and the append path. -/

theorem sortByTimestampDesc_perm (s : Store) : (sortByTimestampDesc s).Perm s :=
  List.perm_insertionSort tsGe s

theorem sortByTimestampDesc_sorted (s : Store) : List.Sorted tsGe (sortByTimestampDesc s) :=
  List.sorted_insertionSort tsGe s

/-- The head of the `ORDER BY timestamp DESC` scan is a stored receipt whose
timestamp is not below any stored receipt's. -/
theorem sort_head_max (s : Store) (h : Receipt) (tl : List Receipt)
    (hs : sortByTimestampDesc s = h :: tl) :
    h ∈ s ∧ ∀ t ∈ s, strLtB h.timestamp.data t.timestamp.data = false := by
  have hperm := sortByTimestampDesc_perm s
  have hsorted := sortByTimestampDesc_sorted s
  rw [hs] at hperm hsorted
  refine ⟨hperm.mem_iff.mp (List.mem_cons_self h tl), ?_⟩
  intro t ht
  have ht' : t ∈ h :: tl := hperm.mem_iff.mpr ht
  rcases List.mem_cons.mp ht' with rfl | htl
  · exact strLtB_irrefl _
  · exact List.rel_of_sorted_cons hsorted t htl

/-- A non-empty store has a maximal-timestamp receipt, and
`get_latest_receipt_hash` returns that receipt's `document_hash`. -/
theorem get_latest_is_max (s : Store) (hne : s ≠ []) :
    ∃ t ∈ s, (∀ u ∈ s, strLtB t.timestamp.data u.timestamp.data = false) ∧
      get_latest_receipt_hash s = some t.document_hash := by
  cases hs : sortByTimestampDesc s with
  | nil =>
    have hperm := sortByTimestampDesc_perm s
    rw [hs] at hperm
    exact absurd (hperm.symm.eq_nil) hne
  | cons h tl =>
    obtain ⟨hmem, hge⟩ := sort_head_max s h tl hs
    exact ⟨h, hmem, hge, by simp [get_latest_receipt_hash, hs]⟩

/-- When one stored receipt's timestamp strictly exceeds every other's,
`get_latest_receipt_hash` returns its `document_hash`. -/
theorem get_latest_unique_max (s : Store) (t : Receipt) (ht : t ∈ s)
    (hmax : ∀ u ∈ s, u ≠ t → sqlLt u.timestamp t.timestamp) :
    get_latest_receipt_hash s = some t.document_hash := by
  obtain ⟨h, hmem, hge, heq⟩ := get_latest_is_max s (by intro h0; rw [h0] at ht; exact absurd ht (List.not_mem_nil t))
  have hht : h = t := by
    by_contra hne
    have h1 := hmax h hmem hne
    have h2 := hge t ht
    rw [sqlLt] at h1
    rw [h1] at h2
    exact Bool.noConfusion h2
  rw [heq, hht]

/-- Inversion of a successful append: the returned record is the assembled
`receipt_data`, no stored receipt had its id, and the table gained exactly
that row. -/
theorem create_receipt_ok_inv (s : Store) (fresh : String) (req : ReceiptCreate)
    (r : Receipt) (h : (create_receipt s fresh req).1 = Except.ok r) :
    r = mkReceipt s fresh req ∧
    s.any (fun t => t.id == resolveId fresh req.id) = false ∧
    (create_receipt s fresh req).2 = s ++ [r] := by
  cases hdup : s.any (fun t => t.id == resolveId fresh req.id) with
  | true =>
    exfalso
    simp only [create_receipt, hdup, if_true] at h
    exact Except.noConfusion h
  | false =>
    have hc : create_receipt s fresh req
        = (Except.ok (mkReceipt s fresh req), s ++ [mkReceipt s fresh req]) := by
      simp only [create_receipt, hdup, Bool.false_eq_true, if_false]
    rw [hc] at h
    have hr : mkReceipt s fresh req = r := Except.ok.inj h
    subst hr
    exact ⟨rfl, rfl, by rw [hc]⟩

/-- The Bool scan the verifier runs is the linkage search of the spec. -/
theorem verify_search_iff (s : Store) (p : String) (r : Receipt) :
    (s.any (fun t => t.document_hash == p && strLtB t.timestamp.data r.timestamp.data) = true)
      ↔ ∃ t ∈ s, t.document_hash = p ∧ sqlLt t.timestamp r.timestamp := by
  rw [List.any_eq_true]
  constructor
  · rintro ⟨t, ht, hpred⟩
    rw [Bool.and_eq_true] at hpred
    exact ⟨t, ht, beq_iff_eq.mp hpred.1, hpred.2⟩
  · rintro ⟨t, ht, hdoc, hts⟩
    exact ⟨t, ht, by rw [Bool.and_eq_true]; exact ⟨beq_iff_eq.mpr hdoc, hts⟩⟩

/-! Fixture receipts and requests used by the concrete witnesses below. -/

def wA : Receipt := ⟨"a", "ha", "sa", "1", "pdf_signing", none, none⟩

def wReqA : ReceiptCreate := ⟨some "a", "ha", "sa", "1", "pdf_signing", none⟩

def wB : Receipt := ⟨"b", "hb", "sb", "2", "pdf_signing", some "ha", none⟩

def wReqB : ReceiptCreate := ⟨some "b", "hb", "sb", "2", "pdf_signing", none⟩

/-- C2: appending to an empty store stores a null `previous_hash`; appending
to a non-empty store stores the `document_hash` of a maximal-timestamp
receipt, and of *the* maximum-timestamp receipt whenever that maximum is
unique (in particular, appending `A` to an empty store and then `B` links
`B` to `A.document_hash`). -/
theorem append_links_to_latest_tip (s : Store) (fresh : String) (req : ReceiptCreate)
    (r : Receipt) (h : (create_receipt s fresh req).1 = Except.ok r) :
    (s = [] → r.previous_hash = none) ∧
    (s ≠ [] → ∃ t ∈ s, (∀ u ∈ s, strLtB t.timestamp.data u.timestamp.data = false) ∧
       r.previous_hash = some t.document_hash) ∧
    (∀ t ∈ s, (∀ u ∈ s, u ≠ t → sqlLt u.timestamp t.timestamp) →
       r.previous_hash = some t.document_hash) := by
  obtain ⟨hr, -, -⟩ := create_receipt_ok_inv s fresh req r h
  subst hr
  refine ⟨?_, ?_, ?_⟩
  · intro h0
    subst h0
    rfl
  · intro hne
    obtain ⟨t, ht, hmax, heq⟩ := get_latest_is_max s hne
    exact ⟨t, ht, hmax, by simp [mkReceipt, heq]⟩
  · intro t ht hmax
    have heq := get_latest_unique_max s t ht hmax
    simp [mkReceipt, heq]

/-- Witness for C2: appending `wA` to the empty store yields a null link,
and then appending `wB` links it to `wA.document_hash`. -/
theorem append_links_to_latest_tip_witness :
    wA.previous_hash = none ∧ wB.previous_hash = some wA.document_hash :=
  ⟨(append_links_to_latest_tip [] "g" wReqA wA rfl).1 rfl,
   (append_links_to_latest_tip [wA] "g" wReqB wB rfl).2.2 wA (List.mem_singleton.mpr rfl)
     (by
       intro u hu hne
       rw [List.mem_singleton] at hu
       exact absurd hu hne)⟩

/-- C4: an append whose resolved id already exists in the store fails with
the HTTP 400 duplicate-id error and leaves the table unchanged, so the store
retains only the first receipt with that id. -/
theorem duplicate_id_rejected (s : Store) (fresh : String) (req : ReceiptCreate)
    (t : Receipt) (ht : t ∈ s) (hid : t.id = resolveId fresh req.id) :
    (create_receipt s fresh req).1 =
      Except.error ⟨400, "Receipt with ID " ++ resolveId fresh req.id ++ " already exists"⟩ ∧
    (create_receipt s fresh req).2 = s := by
  have hdup : s.any (fun u => u.id == resolveId fresh req.id) = true :=
    List.any_eq_true.mpr ⟨t, ht, beq_iff_eq.mpr hid⟩
  exact ⟨by simp only [create_receipt, hdup, if_true],
         by simp only [create_receipt, hdup, if_true]⟩

/-- Request reusing the already-stored id `"a"` of `wA`. -/
def wReqDup : ReceiptCreate := ⟨some "a", "d2", "s2", "9", "pdf_signing", none⟩

/-- Witness for C4: re-appending id `"a"` fails with 400 and keeps the store
at exactly the first receipt. -/
theorem duplicate_id_rejected_witness :
    (create_receipt [wA] "g" wReqDup).1 =
      Except.error ⟨400, "Receipt with ID a already exists"⟩ ∧
    (create_receipt [wA] "g" wReqDup).2 = [wA] :=
  duplicate_id_rejected [wA] "g" wReqDup wA (List.mem_singleton.mpr rfl) rfl

/-- C7: append is all-or-nothing — either the call fails and the store is
unchanged, or it succeeds and the store gains exactly the fully-populated
record it returns. -/
theorem append_all_or_nothing (s : Store) (fresh : String) (req : ReceiptCreate) :
    (∃ e, (create_receipt s fresh req).1 = Except.error e ∧
       (create_receipt s fresh req).2 = s) ∨
    (∃ r, (create_receipt s fresh req).1 = Except.ok r ∧
       (create_receipt s fresh req).2 = s ++ [r] ∧
       r.id = resolveId fresh req.id ∧
       r.document_hash = req.document_hash ∧
       r.signature = req.signature ∧
       r.timestamp = req.timestamp ∧
       r.type = req.type ∧
       r.previous_hash = get_latest_receipt_hash s ∧
       r.metadata = storedMetadata req.metadata) := by
  cases hdup : s.any (fun t => t.id == resolveId fresh req.id) with
  | true =>
    left
    exact ⟨⟨400, "Receipt with ID " ++ resolveId fresh req.id ++ " already exists"⟩,
           by simp only [create_receipt, hdup, if_true],
           by simp only [create_receipt, hdup, if_true]⟩
  | false =>
    right
    refine ⟨mkReceipt s fresh req, ?_, ?_, rfl, rfl, rfl, rfl, rfl, rfl, rfl⟩
    · simp only [create_receipt, hdup, Bool.false_eq_true, if_false]
    · simp only [create_receipt, hdup, Bool.false_eq_true, if_false]

/-- C8: the chain links verbatim document hashes — whenever an appended
receipt carries `previous_hash = some p`, the string `p` is literally the
`document_hash` field of a stored tip (maximal-timestamp) receipt; no digest
of the receipt's own content enters the link. -/
theorem previous_hash_is_tip_document_hash (s : Store) (fresh : String)
    (req : ReceiptCreate) (r : Receipt)
    (h : (create_receipt s fresh req).1 = Except.ok r)
    (p : String) (hp : r.previous_hash = some p) :
    ∃ t ∈ s, t.document_hash = p ∧
      ∀ u ∈ s, strLtB t.timestamp.data u.timestamp.data = false := by
  obtain ⟨hr, -, -⟩ := create_receipt_ok_inv s fresh req r h
  subst hr
  have hprev : get_latest_receipt_hash s = some p := hp
  by_cases hne : s = []
  · subst hne
    exact absurd hprev (by simp [get_latest_receipt_hash, sortByTimestampDesc, List.insertionSort])
  · obtain ⟨t, ht, hmax, heq⟩ := get_latest_is_max s hne
    rw [heq] at hprev
    exact ⟨t, ht, Option.some.inj hprev, hmax⟩

/-- Witness for C8: the link stored for `wB` is exactly `wA`'s document hash,
and `wA` is the tip of the one-receipt store. -/
theorem previous_hash_is_tip_document_hash_witness :
    ∃ t ∈ [wA], t.document_hash = "ha" ∧
      ∀ u ∈ [wA], strLtB t.timestamp.data u.timestamp.data = false :=
  previous_hash_is_tip_document_hash [wA] "g" wReqB wB rfl "ha" rfl

/-! C3: the verifier's truthiness test conflates an empty-string
`previous_hash` with an absent one. -/

/-- Receipt with an empty `document_hash` and the later timestamp. -/
def cexA : Receipt := ⟨"a", "", "sigA", "5", "pdf_signing", none, none⟩

/-- Receipt appended after `cexA` but with an earlier timestamp: its stored
`previous_hash` is the empty string. -/
def cexB : Receipt := ⟨"b", "x", "sigB", "3", "pdf_signing", some "", none⟩

/-- C3 counterexample: the store `[cexA, cexB]` is reached by two appends;
`cexB.previous_hash` is present (`some ""`), no stored receipt has that
`document_hash` together with a strictly earlier timestamp, yet Verify
answers `verified: true` — the claim requires `verified: false` here. -/
theorem verify_empty_prev_counterexample :
    create_receipt [] "g1" ⟨some "a", "", "sigA", "5", "pdf_signing", none⟩
      = (Except.ok cexA, [cexA]) ∧
    create_receipt [cexA] "g2" ⟨some "b", "x", "sigB", "3", "pdf_signing", none⟩
      = (Except.ok cexB, [cexA, cexB]) ∧
    cexB.previous_hash = some "" ∧
    (¬ ∃ t ∈ [cexA, cexB], t.document_hash = "" ∧ sqlLt t.timestamp cexB.timestamp) ∧
    verify_receipt [cexA, cexB] "b" = Except.ok (verifiedTrue "b") :=
  ⟨rfl, rfl, rfl, by decide, rfl⟩

/-- C3 amended: for a fetched receipt, verification succeeds trivially when
`previous_hash` is absent *or the empty string* (Python truthiness); when it
is present and non-empty, the result is `verified: true` exactly when some
stored receipt has that `document_hash` and a strictly earlier timestamp,
and `verified: false` otherwise. -/
theorem verify_characterization (s : Store) (rid : String) (r : Receipt)
    (hfind : s.find? (fun t => t.id == rid) = some r) :
    ((r.previous_hash = none ∨ r.previous_hash = some "") →
        verify_receipt s rid = Except.ok (verifiedTrue rid)) ∧
    (∀ p, r.previous_hash = some p → p ≠ "" →
      ((∃ t ∈ s, t.document_hash = p ∧ sqlLt t.timestamp r.timestamp) →
          verify_receipt s rid = Except.ok (verifiedTrue rid)) ∧
      ((¬ ∃ t ∈ s, t.document_hash = p ∧ sqlLt t.timestamp r.timestamp) →
          verify_receipt s rid = Except.ok verifiedFalse)) := by
  constructor
  · rintro (hnone | hempty)
    · simp [verify_receipt, hfind, hnone]
    · simp [verify_receipt, hfind, hempty]
  · intro p hp hpne
    constructor
    · intro hex
      have hany := (verify_search_iff s p r).mpr hex
      simp [verify_receipt, hfind, hp, hpne, hany]
    · intro hnex
      have hany : (s.any (fun t =>
          t.document_hash == p && strLtB t.timestamp.data r.timestamp.data)) = false := by
        cases hb : s.any (fun t =>
            t.document_hash == p && strLtB t.timestamp.data r.timestamp.data) with
        | false => rfl
        | true => exact absurd ((verify_search_iff s p r).mp hb) hnex
      simp [verify_receipt, hfind, hp, hpne, hany]

/-- Witness for the amended C3: the linked receipt `wB` verifies true, and
the root `wA` (null link) verifies true. -/
theorem verify_characterization_witness :
    verify_receipt [wA, wB] "b" = Except.ok (verifiedTrue "b") ∧
    verify_receipt [wA, wB] "a" = Except.ok (verifiedTrue "a") :=
  ⟨((verify_characterization [wA, wB] "b" wB rfl).2 "ha" rfl (by decide)).1
     ⟨wA, by simp [wA, wB], rfl, by decide⟩,
   (verify_characterization [wA, wB] "a" wA rfl).1 (Or.inl rfl)⟩

/-! C5: the failure body's key is `error`, not `reason`, and the message is
capitalised. -/

/-- Receipt whose `document_hash` is `"zzz"` and whose timestamp is the later
one. -/
def cexA5 : Receipt := ⟨"a5", "zzz", "sigA", "9", "pdf_signing", none, none⟩

/-- Receipt appended after `cexA5` with an earlier timestamp, so its stored
link `"zzz"` has no strictly earlier owner and verification fails. -/
def cexB5 : Receipt := ⟨"b5", "w", "sigB", "1", "pdf_signing", some "zzz", none⟩

/-- C5 counterexample: a failed verification is reached by two appends, and
the returned body is `{"verified": false, "error": "Previous hash does not
match any receipt"}`, which is not the claimed
`{"verified": false, "reason": "previous hash does not match any receipt"}`. -/
theorem verify_failure_shape_counterexample :
    create_receipt [] "g1" ⟨some "a5", "zzz", "sigA", "9", "pdf_signing", none⟩
      = (Except.ok cexA5, [cexA5]) ∧
    create_receipt [cexA5] "g2" ⟨some "b5", "w", "sigB", "1", "pdf_signing", none⟩
      = (Except.ok cexB5, [cexA5, cexB5]) ∧
    verify_receipt [cexA5, cexB5] "b5" = Except.ok verifiedFalse ∧
    verifiedFalse ≠
      [("verified", JVal.jbool false),
       ("reason", JVal.jstr "previous hash does not match any receipt")] :=
  ⟨rfl, rfl, rfl, by decide⟩

/-- C5 amended: when the predecessor search of an existing receipt finds no
match, the endpoint returns a normal successful response (no HTTP error)
whose body is `{"verified": false, "error": "Previous hash does not match
any receipt"}`. -/
theorem verify_failure_is_normal_response (s : Store) (rid : String) (r : Receipt)
    (hfind : s.find? (fun t => t.id == rid) = some r)
    (p : String) (hp : r.previous_hash = some p) (hpne : p ≠ "")
    (hnomatch : ¬ ∃ t ∈ s, t.document_hash = p ∧ sqlLt t.timestamp r.timestamp) :
    verify_receipt s rid = Except.ok
      [("verified", JVal.jbool false),
       ("error", JVal.jstr "Previous hash does not match any receipt")] := by
  have hany : (s.any (fun t =>
      t.document_hash == p && strLtB t.timestamp.data r.timestamp.data)) = false := by
    cases hb : s.any (fun t =>
        t.document_hash == p && strLtB t.timestamp.data r.timestamp.data) with
    | false => rfl
    | true => exact absurd ((verify_search_iff s p r).mp hb) hnomatch
  simp [verify_receipt, hfind, hp, hpne, hany, verifiedFalse]

/-- Witness for the amended C5: verifying `cexB5` returns the 200 body with
the `error` key. -/
theorem verify_failure_is_normal_response_witness :
    verify_receipt [cexA5, cexB5] "b5" = Except.ok
      [("verified", JVal.jbool false),
       ("error", JVal.jstr "Previous hash does not match any receipt")] :=
  verify_failure_is_normal_response [cexA5, cexB5] "b5" cexB5 rfl "zzz" rfl
    (by decide) (by decide)

/-- C6: for every store and non-negative `limit`/`offset`, the listed
receipts are in non-increasing timestamp order, the reported total is the
store's size regardless of `limit`, and with no offset a `limit` at least
the total returns all stored receipts. -/
theorem list_receipts_sorted_and_total (s : Store) (limit offset : Nat) :
    List.Sorted tsGe (list_receipts s limit offset).receipts ∧
    (list_receipts s limit offset).total = s.length ∧
    (offset = 0 → s.length ≤ limit →
      (list_receipts s limit offset).receipts.Perm s) := by
  refine ⟨?_, rfl, ?_⟩
  · have hsorted := sortByTimestampDesc_sorted s
    have hsub : List.Sublist (((sortByTimestampDesc s).drop offset).take limit)
        (sortByTimestampDesc s) :=
      (List.take_sublist _ _).trans (List.drop_sublist _ _)
    exact List.Pairwise.sublist hsub hsorted
  · intro h0 hlim
    subst h0
    have hperm := sortByTimestampDesc_perm s
    have htake : (sortByTimestampDesc s).take limit = sortByTimestampDesc s := by
      apply List.take_of_length_le
      rw [hperm.length_eq]
      exact hlim
    simp only [list_receipts, List.drop_zero, htake]
    exact hperm

/-- Witness for C6: listing a two-receipt store with `limit = 5` is sorted,
reports total 2, and returns both receipts. -/
theorem list_receipts_sorted_and_total_witness :
    List.Sorted tsGe (list_receipts [wA, wB] 5 0).receipts ∧
    (list_receipts [wA, wB] 5 0).total = 2 ∧
    (list_receipts [wA, wB] 5 0).receipts.Perm [wA, wB] :=
  ⟨(list_receipts_sorted_and_total [wA, wB] 5 0).1,
   (list_receipts_sorted_and_total [wA, wB] 5 0).2.1,
   (list_receipts_sorted_and_total [wA, wB] 5 0).2.2 rfl (by decide)⟩

/-- C9: every timestamp comparison is the string (lexicographic) order
`sqlLt`: a receipt whose timestamp is the lexicographically larger string is
the tip the next append links against, wherever it sits in the table, and
the verifier's strictly-earlier test accepts a predecessor whose timestamp
string is lexicographically smaller. -/
theorem timestamps_compared_as_strings (r1 r2 : Receipt)
    (h : sqlLt r1.timestamp r2.timestamp) :
    get_latest_receipt_hash [r1, r2] = some r2.document_hash ∧
    get_latest_receipt_hash [r2, r1] = some r2.document_hash ∧
    (∀ p, r2.previous_hash = some p → p ≠ "" → p = r1.document_hash →
       r1.id ≠ r2.id →
       verify_receipt [r1, r2] r2.id = Except.ok (verifiedTrue r2.id)) := by
  have hmax2 : ∀ u ∈ [r1, r2], u ≠ r2 → sqlLt u.timestamp r2.timestamp := by
    intro u hu hune
    rcases List.mem_cons.mp hu with rfl | hu2
    · exact h
    · rw [List.mem_singleton] at hu2
      exact absurd hu2 hune
  have hmax2' : ∀ u ∈ [r2, r1], u ≠ r2 → sqlLt u.timestamp r2.timestamp := by
    intro u hu hune
    rcases List.mem_cons.mp hu with rfl | hu2
    · exact absurd rfl hune
    · rw [List.mem_singleton] at hu2
      subst hu2
      exact h
  refine ⟨get_latest_unique_max [r1, r2] r2 (by simp) hmax2,
          get_latest_unique_max [r2, r1] r2 (by simp) hmax2', ?_⟩
  intro p hp hpne hpd hid
  have hfind : List.find? (fun t => t.id == r2.id) [r1, r2] = some r2 := by
    rw [List.find?_cons_of_neg, List.find?_cons_of_pos]
    · exact beq_self_eq_true r2.id
    · simp [hid]
  have hex : ∃ t ∈ [r1, r2], t.document_hash = p ∧ sqlLt t.timestamp r2.timestamp :=
    ⟨r1, by simp, hpd.symm, h⟩
  have hany := (verify_search_iff [r1, r2] p r2).mpr hex
  simp [verify_receipt, hfind, hp, hpne, hany]

/-- Receipt with timestamp string `"10"`: numerically later than `"9"` but
lexicographically smaller. -/
def w9a : Receipt := ⟨"x", "dx", "sx", "10", "pdf_signing", none, none⟩

/-- Receipt with timestamp string `"9"`, linking to `w9a`'s document hash. -/
def w9b : Receipt := ⟨"y", "dy", "sy", "9", "pdf_signing", some "dx", none⟩

/-- Witness for C9: `"10" < "9"` as strings, so the receipt stamped `"9"` is
the tip against the one stamped `"10"`, and it verifies against it. -/
theorem timestamps_compared_as_strings_witness :
    sqlLt "10" "9" ∧
    get_latest_receipt_hash [w9a, w9b] = some "dy" ∧
    verify_receipt [w9a, w9b] "y" = Except.ok (verifiedTrue "y") :=
  ⟨by decide,
   (timestamps_compared_as_strings w9a w9b (by decide)).1,
   (timestamps_compared_as_strings w9a w9b (by decide)).2.2 "dx" rfl (by decide) rfl
     (by decide)⟩

/-- C10: an append whose metadata is the empty dict stores and returns a
null metadata, while an absent metadata stays absent and a non-empty one
round-trips unchanged; the appended record reads back by id exactly as
returned. -/
theorem empty_metadata_stored_as_null (s : Store) (fresh : String)
    (req : ReceiptCreate) (r : Receipt)
    (h : (create_receipt s fresh req).1 = Except.ok r) :
    (req.metadata = some [] → r.metadata = none) ∧
    (req.metadata = none → r.metadata = none) ∧
    (∀ kvs, req.metadata = some kvs → kvs ≠ [] → r.metadata = some kvs) ∧
    get_receipt (create_receipt s fresh req).2 r.id = Except.ok r := by
  obtain ⟨hr, hdup, hst⟩ := create_receipt_ok_inv s fresh req r h
  refine ⟨?_, ?_, ?_, ?_⟩
  · intro hm
    rw [hr]
    simp [mkReceipt, storedMetadata, hm]
  · intro hm
    rw [hr]
    simp [mkReceipt, storedMetadata, hm]
  · intro kvs hm hkne
    rw [hr]
    cases kvs with
    | nil => exact absurd rfl hkne
    | cons k ks => simp [mkReceipt, storedMetadata, hm]
  · have hidr : r.id = resolveId fresh req.id := by
      rw [hr]
      rfl
    have hnone : s.find? (fun t => t.id == r.id) = none := by
      rw [List.find?_eq_none]
      intro x hx
      intro hbeq
      have hxid : x.id = resolveId fresh req.id := by
        rw [← hidr]
        exact beq_iff_eq.mp hbeq
      have : s.any (fun t => t.id == resolveId fresh req.id) = true :=
        List.any_eq_true.mpr ⟨x, hx, beq_iff_eq.mpr hxid⟩
      rw [this] at hdup
      exact Bool.noConfusion hdup
    have hfind : (s ++ [r]).find? (fun t => t.id == r.id) = some r := by
      rw [List.find?_append, hnone]
      simp
    rw [hst]
    simp [get_receipt, hfind]

/-- Request carrying the empty metadata dict. -/
def wMReq : ReceiptCreate := ⟨some "m", "dm", "sm", "1", "pdf_signing", some []⟩

/-- The record stored for `wMReq`: its metadata is null, not the empty dict. -/
def wM : Receipt := ⟨"m", "dm", "sm", "1", "pdf_signing", none, none⟩

/-- Witness for C10: appending with metadata `{}` stores null metadata, and
the record reads back unchanged. -/
theorem empty_metadata_stored_as_null_witness :
    wM.metadata = none ∧ get_receipt [wM] "m" = Except.ok wM :=
  ⟨(empty_metadata_stored_as_null [] "g" wMReq wM rfl).1 rfl,
   (empty_metadata_stored_as_null [] "g" wMReq wM rfl).2.2.2⟩

end ReceiptLedger
